import Mathlib

/-!
Shallow embedding of the lamp-control core of src/crafter-lamp.ino.

Modelling conventions:
- C ints are modelled as Lean Int (values stay far from 32-bit bounds).
- Time is modelled in seconds as Nat (ezTime time_t values).
- The three lamps are indexed by Fin 3 (A = 0, B = 1, C = 2).
- Side effects on the hardware and the network are recorded in an explicit
  Effect trace: analogWrite calls, delay calls, MQTT publishes and serial
  log lines.  Display rendering is not modelled (it reads core state and
  writes only to the display), but the branches of the source that guard
  core-state mutations on displayConnected are kept faithfully.
- The field output records, per lamp, the value of the last analogWrite to
  the pin of that lamp (0 before any write, matching a LOW output pin).
- The field knobPos records the hardware counter of the rotary encoder as
  last written by the firmware (rotaryKnob.write); the reading passed to
  the loop is a free input, because the user may rotate at any time.
-/

-- mqtt topics (source lines 80-82)
def mqttLampTopic : String := "crafter-lamp"

def mqttBrightnessTopic : String := "brightness"

def mqttCommandTopic : String := "command"

-- configuration constants (source lines 103-106)
def numberOfLamps : Nat := 3

def fadeSpeed : Nat := 7

def displayAfterglow : Nat := 4

def minLampValue : Int := 2

-- displayAlwaysOn is a global set to true and never modified (source line 111)
def displayAlwaysOn : Bool := true

-- serial log lines of mqttCallback (source lines 301, 307, 338)
def msgWrongLamp : String := "MQTT: wrong lamp"

def msgWrongValue : String := "MQTT: wrong value"

def msgUnknownTopic : String := "MQTT: unknown topic"

/-- lamp_t (source lines 96-101): pin, isOn, isOnDefault, value. -/
structure Lamp where
  pin : Nat
  isOn : Bool
  isOnDefault : Bool
  value : Int
deriving DecidableEq, Repr

/-- Observable side effects of the firmware on hardware and network. -/
inductive Effect where
  | analogWrite (pin : Nat) (v : Int)
  | delayMs (ms : Nat)
  | publish (lampIdx : Nat) (v : Int)
  | log (msg : String)
deriving DecidableEq, Repr

/-- Global mutable state of the firmware (source lines 108-116), plus the
per-pin last analogWrite value and the single pending ezTime event set by
setEvent for clearDisplayAndPublishMQTT. -/
structure MachineState where
  lamps : Fin 3 → Lamp
  selectedLamp : Fin 3
  rotaryOldPosition : Int
  knobPos : Int
  lampsInUse : Bool
  pendingSettle : Option Nat
  output : Fin 3 → Int
  displayConnected : Bool
  wifiConnected : Bool
  mqttConnected : Bool

/-- pins D3, D7, D8 of the three lamps (source lines 136-138). -/
def lampPin : Fin 3 → Nat
  | ⟨0, _⟩ => 3
  | ⟨1, _⟩ => 7
  | ⟨2, _⟩ => 8

/-- lampsState recomputation loop (source lines 319-321 and 375-377):
fold of logical-or of isOn over the three lamps. -/
def lampsState (l : Fin 3 → Lamp) : Bool :=
  ((l 0).isOn || (l 1).isOn) || (l 2).isOn

/-- initial state after setup() (source lines 118-204): all lamps off with
value 128, selection 0, encoder written to the selected value, old position
128; the three connectivity flags are determined by the hardware present. -/
def initState (dc wc mc : Bool) : MachineState where
  lamps := fun i => { pin := lampPin i, isOn := false, isOnDefault := false, value := 128 }
  selectedLamp := 0
  rotaryOldPosition := 128
  knobPos := 128
  lampsInUse := false
  pendingSettle := none
  output := fun _ => 0
  displayConnected := dc
  wifiConnected := wc
  mqttConnected := mc

/-- Arduino String.toInt = atol: digit-accumulation part. -/
def digitsVal : List Char → Int → Int
  | [], acc => acc
  | c :: cs, acc =>
    if 48 ≤ c.toNat ∧ c.toNat ≤ 57 then digitsVal cs (acc * 10 + ((c.toNat : Int) - 48))
    else acc

/-- atol skips C whitespace before the optional sign. -/
def isSpaceChar (c : Char) : Bool :=
  [' ', '\t', '\n', '\x0b', '\x0c', '\r'].contains c

def skipSpaces : List Char → List Char
  | [] => []
  | c :: cs => if isSpaceChar c then skipSpaces cs else c :: cs

/-- Arduino String.toInt (atol): skip whitespace, optional sign, then the
longest leading digit run; 0 when there is no leading digit. -/
def strToInt (p : List Char) : Int :=
  match skipSpaces p with
  | [] => 0
  | c :: cs =>
    if c = '-' then - digitsVal cs 0
    else if c = '+' then digitsVal cs 0
    else digitsVal (c :: cs) 0

/-- payload has no digit where atol would look for one, so it parses to 0. -/
def noLeadingDigit (p : List Char) : Bool :=
  match skipSpaces p with
  | [] => true
  | c :: cs =>
    if c = '-' ∨ c = '+' then
      match cs with
      | [] => true
      | c2 :: _ => decide (¬ (48 ≤ c2.toNat ∧ c2.toNat ≤ 57))
    else decide (¬ (48 ≤ c.toNat ∧ c.toNat ≤ 57))

/-- fade loop of switchLamp (source lines 452-459): for i = 0 .. value,
write i (on) or value - i (off) to the pin and delay fadeSpeed ms.  When
value is negative the C loop body never runs. -/
def fadeTrace (switchOn : Bool) (pin : Nat) (v : Int) : List Effect :=
  if v < 0 then []
  else
    (List.range (v.toNat + 1)).flatMap fun i =>
      [Effect.analogWrite pin (if switchOn then Int.ofNat i else v - Int.ofNat i),
       Effect.delayMs fadeSpeed]

/-- switchLamp (source lines 451-468): blocking fade of the selected lamp,
then isOn := switchOn, then one publish of the value (or 0) when mqtt was
connected at setup. -/
def switchLamp (s : MachineState) (switchOn : Bool) : MachineState × List Effect :=
  let sel := s.selectedLamp
  let v := (s.lamps sel).value
  let s' : MachineState :=
    { s with
      lamps := Function.update s.lamps sel { s.lamps sel with isOn := switchOn }
      output := if v < 0 then s.output
                else Function.update s.output sel (if switchOn then v else 0) }
  (s', fadeTrace switchOn (s.lamps sel).pin v ++
       (if s.mqttConnected then [Effect.publish sel.val (if switchOn then v else 0)] else []))

/-- sequential clamping of the knob reading (source lines 213-220). -/
def clampPos (raw : Int) : Int :=
  if raw < 2 then 2 else if raw > 255 then 255 else raw

/-- knob-turned section of loop() (source lines 209-232): only when the
selected lamp is on; reading raw is the current hardware counter; when it
differs from the recorded old position, clamp, store as the value of the
selected lamp, write the pin directly, and (re)schedule the single settle
event at now + displayAfterglow. -/
def loopKnob (s : MachineState) (raw : Int) (now : Nat) : MachineState × List Effect :=
  if (s.lamps s.selectedLamp).isOn then
    if raw ≠ s.rotaryOldPosition then
      let p := clampPos raw
      let sel := s.selectedLamp
      ({ s with
          lamps := Function.update s.lamps sel { s.lamps sel with value := p }
          rotaryOldPosition := p
          knobPos := p
          output := Function.update s.output sel p
          pendingSettle := some (now + displayAfterglow) },
       [Effect.analogWrite (s.lamps sel).pin p])
    else (s, [])
  else (s, [])

/-- events() poll for the single scheduled clearDisplayAndPublishMQTT event
(source lines 245, 358-368): an ezTime one-shot event fires once its time is
due and is then removed; firing publishes the selected lamp value when mqtt
was connected at setup. -/
def eventsPoll (s : MachineState) (now : Nat) : MachineState × List Effect :=
  match s.pendingSettle with
  | some due =>
    if due ≤ now then
      ({ s with pendingSettle := none },
       if s.mqttConnected then [Effect.publish s.selectedLamp.val (s.lamps s.selectedLamp).value]
       else [])
    else (s, [])
  | none => (s, [])

/-- rotaryClick (source lines 370-399): toggle the selected lamp through
switchLamp; recompute lampsInUse from the lamp array when turning off; set
lampsInUse before turning on when no lamp was in use. -/
def rotaryClick (s : MachineState) : MachineState × List Effect :=
  if (s.lamps s.selectedLamp).isOn then
    let r := switchLamp s false
    ({ r.1 with lampsInUse := lampsState r.1.lamps }, r.2)
  else
    let s₁ := if s.lampsInUse then s else { s with lampsInUse := true }
    switchLamp s₁ true

/-- advance of selectedLamp with explicit wrap (source lines 402-405). -/
def nextLampIdx (i : Fin 3) : Fin 3 :=
  if h : i.val + 1 ≥ numberOfLamps then ⟨0, by omega⟩
  else ⟨i.val + 1, by simpa [numberOfLamps] using Nat.lt_of_not_le h⟩

/-- rotaryDoubleClick (source lines 401-410): advance the selection and
write the stored value of the new selection to the encoder. -/
def rotaryDoubleClick (s : MachineState) : MachineState × List Effect :=
  let sel := nextLampIdx s.selectedLamp
  ({ s with selectedLamp := sel, knobPos := (s.lamps sel).value }, [])

def finRange3 : List (Fin 3) := [0, 1, 2]

/-- one iteration of the all-off loop of rotaryLongPressStart (source lines
414-420): snapshot isOn into isOnDefault, and when the lamp is on select it
and switch it off. -/
def lpOffIter (acc : MachineState × List Effect) (i : Fin 3) : MachineState × List Effect :=
  let s := acc.1
  let s := { s with
    lamps := Function.update s.lamps i { s.lamps i with isOnDefault := (s.lamps i).isOn } }
  if (s.lamps i).isOn then
    let s := { s with selectedLamp := i }
    let r := switchLamp s false
    (r.1, acc.2 ++ r.2)
  else (s, acc.2)

/-- one iteration of the restore loop of rotaryLongPressStart (source lines
432-438): isOn := isOnDefault, and when now on select the lamp and switch
it with its own isOn. -/
def lpOnIter (acc : MachineState × List Effect) (i : Fin 3) : MachineState × List Effect :=
  let s := acc.1
  let s := { s with
    lamps := Function.update s.lamps i { s.lamps i with isOn := (s.lamps i).isOnDefault } }
  if (s.lamps i).isOn then
    let s := { s with selectedLamp := i }
    let r := switchLamp s ((s.lamps i).isOn)
    (r.1, acc.2 ++ r.2)
  else (s, acc.2)

/-- rotaryLongPressStart (source lines 412-449).  In the all-off branch the
selection is reset to 0 only inside the displayConnected branch (with
displayAlwaysOn a constant true); in the restore branch it is reset
unconditionally. -/
def rotaryLongPressStart (s : MachineState) : MachineState × List Effect :=
  if s.lampsInUse then
    let r := finRange3.foldl lpOffIter (s, [])
    let s' := if r.1.displayConnected then
        (if displayAlwaysOn then { r.1 with selectedLamp := 0 } else r.1)
      else r.1
    ({ s' with lampsInUse := false }, r.2)
  else
    let r := finRange3.foldl lpOnIter (s, [])
    ({ r.1 with selectedLamp := 0, lampsInUse := true }, r.2)

/-- mqttCallback (source lines 288-341), taking the parts the source parses
out of the topic string: lamp is the character after the root topic minus
48, topicPart the substring after the lamp digit, and payload the message
bytes. -/
def mqttCallback (s : MachineState) (lamp : Int) (topicPart : String) (payload : List Char) :
    MachineState × List Effect :=
  let intValue := strToInt payload
  if h : lamp < 0 ∨ lamp > (numberOfLamps : Int) - 1 then (s, [Effect.log msgWrongLamp])
  else
    let i : Fin 3 := ⟨lamp.toNat, by simp [numberOfLamps] at h; omega⟩
    if topicPart = mqttBrightnessTopic then (s, [])
    else if topicPart = mqttCommandTopic then
      if intValue < 0 ∨ intValue > 255 then (s, [Effect.log msgWrongValue])
      else if intValue > 0 then
        ({ s with
            lamps := Function.update s.lamps i
              { s.lamps i with value := intValue, isOn := true }
            output := Function.update s.output i intValue
            knobPos := intValue
            lampsInUse := true },
         [Effect.analogWrite (s.lamps i).pin intValue])
      else
        let s' := { s with
          lamps := Function.update s.lamps i { s.lamps i with isOn := false }
          output := Function.update s.output i 0 }
        ({ s' with lampsInUse := lampsState s'.lamps },
         [Effect.analogWrite (s.lamps i).pin 0])
    else (s, [Effect.log msgUnknownTopic])

/-- the operations of the single-threaded control loop. -/
inductive Op where
  | knob (raw : Int) (now : Nat)
  | click
  | doubleClick
  | longPress
  | poll (now : Nat)
  | mqtt (lamp : Int) (topicPart : String) (payload : List Char)

def stepEff (s : MachineState) : Op → MachineState × List Effect
  | .knob raw now => loopKnob s raw now
  | .click => rotaryClick s
  | .doubleClick => rotaryDoubleClick s
  | .longPress => rotaryLongPressStart s
  | .poll now => eventsPoll s now
  | .mqtt lamp tp pl => mqttCallback s lamp tp pl

def stepS (s : MachineState) (op : Op) : MachineState :=
  (stepEff s op).1

/-- states reachable from some boot configuration by control-loop steps. -/
inductive Reachable : MachineState → Prop where
  | boot (dc wc mc : Bool) : Reachable (initState dc wc mc)
  | next {s : MachineState} (op : Op) : Reachable s → Reachable (stepS s op)

/-- run a list of operations, collecting states and effects. -/
def runEff (s : MachineState) : List Op → MachineState × List Effect
  | [] => (s, [])
  | op :: ops =>
    let r := stepEff s op
    let r' := runEff r.1 ops
    (r'.1, r.2 ++ r'.2)

def isPublish : Effect → Bool
  | .publish _ _ => true
  | _ => false

def publishes (l : List Effect) : List Effect :=
  l.filter isPublish

def writeVals : List Effect → List Int :=
  List.filterMap fun e => match e with
    | .analogWrite _ v => some v
    | _ => none

def delayVals : List Effect → List Nat :=
  List.filterMap fun e => match e with
    | .delayMs d => some d
    | _ => none

/-- a burst of knob movements: each entry (raw, t, u) is a movement to
reading raw at time t followed by a loop poll of events() at time u. -/
def burstOps : List (Int × Nat × Nat) → List Op
  | [] => []
  | (raw, t, u) :: rest => Op.knob raw t :: Op.poll u :: burstOps rest

/-- each reading is a genuine movement (differs from the previous one), is
in the clamp range, and the poll that follows it comes before the quiet
period of the movement has elapsed. -/
def burstOK (oldPos : Int) : List (Int × Nat × Nat) → Prop
  | [] => True
  | (raw, t, u) :: rest =>
    raw ≠ oldPos ∧ 2 ≤ raw ∧ raw ≤ 255 ∧ u < t + displayAfterglow ∧ burstOK raw rest

/-- reading and time of the last movement of a burst. -/
def lastMove (d : Int × Nat) : List (Int × Nat × Nat) → Int × Nat
  | [] => d
  | (raw, t, _) :: rest => lastMove (raw, t) rest

/-- values written by a turn-on ramp: 0, 1, ..., value. -/
def rampUp (v : Int) : List Int :=
  (List.range (v.toNat + 1)).map fun i => Int.ofNat i

/-- values written by a turn-off ramp: value, value - 1, ..., 0. -/
def rampDown (v : Int) : List Int :=
  (List.range (v.toNat + 1)).map fun i => v - Int.ofNat i

/-- boot configuration with display, wifi and mqtt all present. -/
def bootState : MachineState := initState true true true

/-- bootState after one click: lamp 0 on at value 128. -/
def clickState : MachineState := stepS bootState Op.click

/-- boot configuration without a display. -/
def noDisplayBoot : MachineState := initState false true true

/-! Characterization lemmas for the handlers. -/

theorem switchLamp_lamps (s : MachineState) (b : Bool) (j : Fin 3) :
    (switchLamp s b).1.lamps j =
      if j = s.selectedLamp then { s.lamps s.selectedLamp with isOn := b } else s.lamps j := by
  by_cases hj : j = s.selectedLamp <;>
    simp [switchLamp, hj, Function.update_noteq]

theorem switchLamp_output (s : MachineState) (b : Bool) (j : Fin 3) :
    (switchLamp s b).1.output j =
      if j = s.selectedLamp ∧ ¬((s.lamps s.selectedLamp).value < 0) then
        (if b then (s.lamps s.selectedLamp).value else 0)
      else s.output j := by
  by_cases hv : (s.lamps s.selectedLamp).value < 0
  · simp [switchLamp, hv]
  · by_cases hj : j = s.selectedLamp <;>
      simp [switchLamp, hj, hv, Function.update_noteq]

theorem switchLamp_selectedLamp (s : MachineState) (b : Bool) :
    (switchLamp s b).1.selectedLamp = s.selectedLamp := rfl

theorem switchLamp_rotaryOldPosition (s : MachineState) (b : Bool) :
    (switchLamp s b).1.rotaryOldPosition = s.rotaryOldPosition := rfl

theorem switchLamp_lampsInUse (s : MachineState) (b : Bool) :
    (switchLamp s b).1.lampsInUse = s.lampsInUse := rfl

theorem switchLamp_displayConnected (s : MachineState) (b : Bool) :
    (switchLamp s b).1.displayConnected = s.displayConnected := rfl

theorem switchLamp_mqttConnected (s : MachineState) (b : Bool) :
    (switchLamp s b).1.mqttConnected = s.mqttConnected := rfl

theorem clampPos_bounds (raw : Int) : 2 ≤ clampPos raw ∧ clampPos raw ≤ 255 := by
  unfold clampPos
  split <;> [omega; (split <;> omega)]

theorem lampsState_eq_of_isOn (l l' : Fin 3 → Lamp) (h : ∀ i, (l' i).isOn = (l i).isOn) :
    lampsState l' = lampsState l := by
  unfold lampsState
  rw [h 0, h 1, h 2]

theorem lampsState_false (l : Fin 3 → Lamp) (h : lampsState l = false) (i : Fin 3) :
    (l i).isOn = false := by
  unfold lampsState at h
  simp only [Bool.or_eq_false_iff] at h
  fin_cases i <;> simp [h.1.1, h.1.2, h.2]

theorem lpOffIter_lamps (acc : MachineState × List Effect) (i j : Fin 3) :
    (lpOffIter acc i).1.lamps j =
      if j = i then { acc.1.lamps i with isOn := false, isOnDefault := (acc.1.lamps i).isOn }
      else acc.1.lamps j := by
  obtain ⟨s, eff⟩ := acc
  cases hOn : (s.lamps i).isOn <;>
    by_cases hj : j = i <;>
      simp [lpOffIter, hOn, hj, switchLamp_lamps, Function.update_noteq]

theorem lpOffIter_output (acc : MachineState × List Effect) (i j : Fin 3) :
    (lpOffIter acc i).1.output j =
      if j = i ∧ (acc.1.lamps i).isOn = true ∧ ¬((acc.1.lamps i).value < 0) then 0
      else acc.1.output j := by
  obtain ⟨s, eff⟩ := acc
  cases hOn : (s.lamps i).isOn <;>
    by_cases hj : j = i <;>
      by_cases hv : (s.lamps i).value < 0 <;>
        simp [lpOffIter, hOn, hj, hv, switchLamp_output, Function.update_noteq]

theorem lpOffIter_misc (acc : MachineState × List Effect) (i : Fin 3) :
    (lpOffIter acc i).1.rotaryOldPosition = acc.1.rotaryOldPosition ∧
    (lpOffIter acc i).1.displayConnected = acc.1.displayConnected ∧
    (lpOffIter acc i).1.lampsInUse = acc.1.lampsInUse ∧
    (lpOffIter acc i).1.mqttConnected = acc.1.mqttConnected := by
  obtain ⟨s, eff⟩ := acc
  cases hOn : (s.lamps i).isOn <;>
    simp [lpOffIter, hOn, switchLamp]

theorem lpOnIter_lamps (acc : MachineState × List Effect) (i j : Fin 3) :
    (lpOnIter acc i).1.lamps j =
      if j = i then { acc.1.lamps i with isOn := (acc.1.lamps i).isOnDefault }
      else acc.1.lamps j := by
  obtain ⟨s, eff⟩ := acc
  cases hd : (s.lamps i).isOnDefault <;>
    by_cases hj : j = i <;>
      simp [lpOnIter, hd, hj, switchLamp_lamps, Function.update_noteq]

theorem lpOnIter_output (acc : MachineState × List Effect) (i j : Fin 3) :
    (lpOnIter acc i).1.output j =
      if j = i ∧ (acc.1.lamps i).isOnDefault = true ∧ ¬((acc.1.lamps i).value < 0) then
        (acc.1.lamps i).value
      else acc.1.output j := by
  obtain ⟨s, eff⟩ := acc
  cases hd : (s.lamps i).isOnDefault <;>
    by_cases hj : j = i <;>
      by_cases hv : (s.lamps i).value < 0 <;>
        simp [lpOnIter, hd, hj, hv, switchLamp_output, Function.update_noteq]

theorem lpOnIter_misc (acc : MachineState × List Effect) (i : Fin 3) :
    (lpOnIter acc i).1.rotaryOldPosition = acc.1.rotaryOldPosition ∧
    (lpOnIter acc i).1.displayConnected = acc.1.displayConnected ∧
    (lpOnIter acc i).1.mqttConnected = acc.1.mqttConnected := by
  obtain ⟨s, eff⟩ := acc
  cases hd : (s.lamps i).isOnDefault <;>
    simp [lpOnIter, hd, switchLamp]

theorem lpOff_fold_eq (s : MachineState) :
    finRange3.foldl lpOffIter (s, []) = lpOffIter (lpOffIter (lpOffIter (s, []) 0) 1) 2 := rfl

theorem lpOn_fold_eq (s : MachineState) :
    finRange3.foldl lpOnIter (s, []) = lpOnIter (lpOnIter (lpOnIter (s, []) 0) 1) 2 := rfl

theorem lpOff_fold_lamps (s : MachineState) (j : Fin 3) :
    ((finRange3.foldl lpOffIter (s, [])).1.lamps j) =
      { s.lamps j with isOn := false, isOnDefault := (s.lamps j).isOn } := by
  rw [lpOff_fold_eq]
  fin_cases j <;>
    simp [lpOffIter_lamps, Fin.ext_iff]

theorem lpOff_fold_output (s : MachineState) (hv : ∀ i, 0 ≤ (s.lamps i).value) (j : Fin 3) :
    ((finRange3.foldl lpOffIter (s, [])).1.output j) =
      if (s.lamps j).isOn = true then 0 else s.output j := by
  have h0 := hv 0
  have h1 := hv 1
  have h2 := hv 2
  rw [lpOff_fold_eq]
  fin_cases j <;>
    simp [lpOffIter_output, lpOffIter_lamps, Fin.ext_iff, Int.not_lt, h0, h1, h2]

theorem lpOff_fold_misc (s : MachineState) :
    (finRange3.foldl lpOffIter (s, [])).1.rotaryOldPosition = s.rotaryOldPosition ∧
    (finRange3.foldl lpOffIter (s, [])).1.displayConnected = s.displayConnected ∧
    (finRange3.foldl lpOffIter (s, [])).1.lampsInUse = s.lampsInUse ∧
    (finRange3.foldl lpOffIter (s, [])).1.mqttConnected = s.mqttConnected := by
  rw [lpOff_fold_eq]
  obtain ⟨a1, a2, a3, a4⟩ := lpOffIter_misc (s, []) 0
  obtain ⟨b1, b2, b3, b4⟩ := lpOffIter_misc (lpOffIter (s, []) 0) 1
  obtain ⟨c1, c2, c3, c4⟩ := lpOffIter_misc (lpOffIter (lpOffIter (s, []) 0) 1) 2
  exact ⟨c1.trans (b1.trans a1), c2.trans (b2.trans a2), c3.trans (b3.trans a3),
         c4.trans (b4.trans a4)⟩

theorem lpOn_fold_lamps (s : MachineState) (j : Fin 3) :
    ((finRange3.foldl lpOnIter (s, [])).1.lamps j) =
      { s.lamps j with isOn := (s.lamps j).isOnDefault } := by
  rw [lpOn_fold_eq]
  fin_cases j <;>
    simp [lpOnIter_lamps, Fin.ext_iff]

theorem lpOn_fold_output (s : MachineState) (hv : ∀ i, 0 ≤ (s.lamps i).value) (j : Fin 3) :
    ((finRange3.foldl lpOnIter (s, [])).1.output j) =
      if (s.lamps j).isOnDefault = true then (s.lamps j).value else s.output j := by
  have h0 := hv 0
  have h1 := hv 1
  have h2 := hv 2
  rw [lpOn_fold_eq]
  fin_cases j <;>
    simp [lpOnIter_output, lpOnIter_lamps, Fin.ext_iff, Int.not_lt, h0, h1, h2]

theorem lpOn_fold_misc (s : MachineState) :
    (finRange3.foldl lpOnIter (s, [])).1.rotaryOldPosition = s.rotaryOldPosition ∧
    (finRange3.foldl lpOnIter (s, [])).1.displayConnected = s.displayConnected ∧
    (finRange3.foldl lpOnIter (s, [])).1.mqttConnected = s.mqttConnected := by
  rw [lpOn_fold_eq]
  obtain ⟨a1, a2, a3⟩ := lpOnIter_misc (s, []) 0
  obtain ⟨b1, b2, b3⟩ := lpOnIter_misc (lpOnIter (s, []) 0) 1
  obtain ⟨c1, c2, c3⟩ := lpOnIter_misc (lpOnIter (lpOnIter (s, []) 0) 1) 2
  exact ⟨c1.trans (b1.trans a1), c2.trans (b2.trans a2), c3.trans (b3.trans a3)⟩

theorem longPressOff_spec (s : MachineState) (hUse : s.lampsInUse = true)
    (hv : ∀ i, 0 ≤ (s.lamps i).value) :
    (∀ j, (rotaryLongPressStart s).1.lamps j =
        { s.lamps j with isOn := false, isOnDefault := (s.lamps j).isOn }) ∧
    (∀ j, (rotaryLongPressStart s).1.output j =
        if (s.lamps j).isOn = true then 0 else s.output j) ∧
    (rotaryLongPressStart s).1.lampsInUse = false ∧
    (rotaryLongPressStart s).1.rotaryOldPosition = s.rotaryOldPosition ∧
    (rotaryLongPressStart s).1.displayConnected = s.displayConnected ∧
    (rotaryLongPressStart s).1.mqttConnected = s.mqttConnected ∧
    (s.displayConnected = true → (rotaryLongPressStart s).1.selectedLamp = 0) := by
  obtain ⟨m1, m2, m3, m4⟩ := lpOff_fold_misc s
  unfold rotaryLongPressStart
  rw [hUse]
  simp only [displayAlwaysOn, if_true, m2]
  cases hdc : s.displayConnected <;>
    simp [hdc, lpOff_fold_lamps, lpOff_fold_output s hv, m1, m2, m4]

theorem longPressOn_spec (s : MachineState) (hUse : s.lampsInUse = false)
    (hv : ∀ i, 0 ≤ (s.lamps i).value) :
    (∀ j, (rotaryLongPressStart s).1.lamps j =
        { s.lamps j with isOn := (s.lamps j).isOnDefault }) ∧
    (∀ j, (rotaryLongPressStart s).1.output j =
        if (s.lamps j).isOnDefault = true then (s.lamps j).value else s.output j) ∧
    (rotaryLongPressStart s).1.lampsInUse = true ∧
    (rotaryLongPressStart s).1.selectedLamp = 0 ∧
    (rotaryLongPressStart s).1.rotaryOldPosition = s.rotaryOldPosition ∧
    (rotaryLongPressStart s).1.displayConnected = s.displayConnected ∧
    (rotaryLongPressStart s).1.mqttConnected = s.mqttConnected := by
  obtain ⟨m1, m2, m3⟩ := lpOn_fold_misc s
  unfold rotaryLongPressStart
  rw [hUse]
  simp [lpOn_fold_lamps, lpOn_fold_output s hv, m1, m2, m3]

/-! State invariant maintained by every control-loop step. -/

/-- every lamp value stays in [1,255] (128 at boot, [2,255] from the knob,
[1,255] from remote commands); a lamp that is off has its pin driven at 0;
the recorded old knob position stays in [2,255]; and whenever some lamp is
on the lampsInUse flag is set. -/
def CoreInv (s : MachineState) : Prop :=
  (∀ i, 1 ≤ (s.lamps i).value ∧ (s.lamps i).value ≤ 255) ∧
  (∀ i, (s.lamps i).isOn = false → s.output i = 0) ∧
  (2 ≤ s.rotaryOldPosition ∧ s.rotaryOldPosition ≤ 255) ∧
  (lampsState s.lamps = true → s.lampsInUse = true)

theorem loopKnob_off (s : MachineState) (raw : Int) (now : Nat)
    (hOff : (s.lamps s.selectedLamp).isOn = false) :
    loopKnob s raw now = (s, []) := by
  simp [loopKnob, hOff]

theorem loopKnob_same (s : MachineState) (raw : Int) (now : Nat)
    (heq : raw = s.rotaryOldPosition) :
    loopKnob s raw now = (s, []) := by
  cases hOn : (s.lamps s.selectedLamp).isOn <;>
    simp [loopKnob, hOn, heq]

theorem loopKnob_act (s : MachineState) (raw : Int) (now : Nat)
    (hOn : (s.lamps s.selectedLamp).isOn = true) (hne : raw ≠ s.rotaryOldPosition) :
    loopKnob s raw now =
      ({ s with
          lamps := Function.update s.lamps s.selectedLamp
            { s.lamps s.selectedLamp with value := clampPos raw }
          rotaryOldPosition := clampPos raw
          knobPos := clampPos raw
          output := Function.update s.output s.selectedLamp (clampPos raw)
          pendingSettle := some (now + displayAfterglow) },
       [Effect.analogWrite ((s.lamps s.selectedLamp).pin) (clampPos raw)]) := by
  simp [loopKnob, hOn, hne]

theorem mqttCallback_wrongLamp (s : MachineState) (lamp : Int) (tp : String) (pl : List Char)
    (h : lamp < 0 ∨ 2 < lamp) :
    mqttCallback s lamp tp pl = (s, [Effect.log msgWrongLamp]) := by
  unfold mqttCallback
  rw [dif_pos (by simp only [numberOfLamps]; omega)]

theorem mqttCallback_brightness (s : MachineState) (lamp : Int) (pl : List Char)
    (h0 : 0 ≤ lamp) (h2 : lamp ≤ 2) :
    mqttCallback s lamp mqttBrightnessTopic pl = (s, []) := by
  unfold mqttCallback
  rw [dif_neg (by simp only [numberOfLamps]; omega)]
  rw [if_pos rfl]

theorem mqttCallback_wrongValue (s : MachineState) (lamp : Int) (pl : List Char)
    (h0 : 0 ≤ lamp) (h2 : lamp ≤ 2) (hv : strToInt pl < 0 ∨ 255 < strToInt pl) :
    mqttCallback s lamp mqttCommandTopic pl = (s, [Effect.log msgWrongValue]) := by
  unfold mqttCallback
  rw [dif_neg (by simp only [numberOfLamps]; omega)]
  rw [if_neg (by decide), if_pos rfl, if_pos (by omega)]

theorem mqttCallback_unknown (s : MachineState) (lamp : Int) (tp : String) (pl : List Char)
    (h0 : 0 ≤ lamp) (h2 : lamp ≤ 2)
    (hb : tp ≠ mqttBrightnessTopic) (hc : tp ≠ mqttCommandTopic) :
    mqttCallback s lamp tp pl = (s, [Effect.log msgUnknownTopic]) := by
  unfold mqttCallback
  rw [dif_neg (by simp only [numberOfLamps]; omega)]
  rw [if_neg hb, if_neg hc]

theorem mqttCallback_cmdOn (s : MachineState) (lamp : Int) (pl : List Char)
    (h0 : 0 ≤ lamp) (h2 : lamp ≤ 2) (h1 : 0 < strToInt pl) (h255 : strToInt pl ≤ 255) :
    mqttCallback s lamp mqttCommandTopic pl =
      ({ s with
          lamps := Function.update s.lamps ⟨lamp.toNat, by omega⟩
            { s.lamps ⟨lamp.toNat, by omega⟩ with value := strToInt pl, isOn := true }
          output := Function.update s.output ⟨lamp.toNat, by omega⟩ (strToInt pl)
          knobPos := strToInt pl
          lampsInUse := true },
       [Effect.analogWrite ((s.lamps ⟨lamp.toNat, by omega⟩).pin) (strToInt pl)]) := by
  unfold mqttCallback
  rw [dif_neg (by simp only [numberOfLamps]; omega)]
  rw [if_neg (by decide), if_pos rfl, if_neg (by omega), if_pos h1]

theorem mqttCallback_cmdOff (s : MachineState) (lamp : Int) (pl : List Char)
    (h0 : 0 ≤ lamp) (h2 : lamp ≤ 2) (hz : strToInt pl = 0) :
    mqttCallback s lamp mqttCommandTopic pl =
      ({ s with
          lamps := Function.update s.lamps ⟨lamp.toNat, by omega⟩
            { s.lamps ⟨lamp.toNat, by omega⟩ with isOn := false }
          output := Function.update s.output ⟨lamp.toNat, by omega⟩ 0
          lampsInUse := lampsState (Function.update s.lamps ⟨lamp.toNat, by omega⟩
            { s.lamps ⟨lamp.toNat, by omega⟩ with isOn := false }) },
       [Effect.analogWrite ((s.lamps ⟨lamp.toNat, by omega⟩).pin) 0]) := by
  unfold mqttCallback
  rw [dif_neg (by simp only [numberOfLamps]; omega)]
  rw [if_neg (by decide), if_pos rfl, if_neg (by omega), if_neg (by omega)]

theorem inv_init (dc wc mc : Bool) : CoreInv (initState dc wc mc) := by
  refine ⟨?_, ?_, ?_, ?_⟩ <;>
    simp [initState, lampsState]

theorem switchLamp_inv (s : MachineState) (b : Bool)
    (hval : ∀ i, 1 ≤ (s.lamps i).value ∧ (s.lamps i).value ≤ 255)
    (hout : ∀ i, (s.lamps i).isOn = false → s.output i = 0) :
    (∀ i, 1 ≤ ((switchLamp s b).1.lamps i).value ∧ ((switchLamp s b).1.lamps i).value ≤ 255) ∧
    (∀ i, ((switchLamp s b).1.lamps i).isOn = false → (switchLamp s b).1.output i = 0) := by
  constructor
  · intro i
    rw [switchLamp_lamps]
    by_cases hi : i = s.selectedLamp
    · rw [if_pos hi]
      exact hval s.selectedLamp
    · rw [if_neg hi]
      exact hval i
  · intro i hoff
    rw [switchLamp_lamps] at hoff
    rw [switchLamp_output]
    by_cases hi : i = s.selectedLamp
    · rw [if_pos hi] at hoff
      replace hoff : b = false := hoff
      subst hoff
      rw [if_pos ⟨hi, by have := (hval s.selectedLamp).1; omega⟩]
      simp
    · rw [if_neg hi] at hoff
      rw [if_neg (fun hand => hi hand.1)]
      exact hout i hoff

theorem inv_step (s : MachineState) (op : Op) (h : CoreInv s) : CoreInv (stepS s op) := by
  obtain ⟨hval, hout, ⟨hlo1, hlo2⟩, huse⟩ := h
  have hv : ∀ i, 0 ≤ (s.lamps i).value := fun i => le_trans (by omega) (hval i).1
  cases op with
  | knob raw now =>
    show CoreInv (loopKnob s raw now).1
    cases hOn : (s.lamps s.selectedLamp).isOn
    · rw [loopKnob_off s raw now hOn]
      exact ⟨hval, hout, ⟨hlo1, hlo2⟩, huse⟩
    · by_cases hne : raw = s.rotaryOldPosition
      · rw [loopKnob_same s raw now hne]
        exact ⟨hval, hout, ⟨hlo1, hlo2⟩, huse⟩
      · obtain ⟨hc1, hc2⟩ := clampPos_bounds raw
        have hsame : ∀ i, ((Function.update s.lamps s.selectedLamp
            { s.lamps s.selectedLamp with value := clampPos raw }) i).isOn = (s.lamps i).isOn := by
          intro i
          by_cases hi : i = s.selectedLamp
          · subst hi; simp
          · simp [Function.update_noteq hi]
        rw [loopKnob_act s raw now hOn hne]
        refine ⟨?_, ?_, ⟨hc1, hc2⟩, ?_⟩
        · intro i
          by_cases hi : i = s.selectedLamp
          · subst hi; simp; omega
          · simp [Function.update_noteq hi]
            exact hval i
        · intro i hoff
          by_cases hi : i = s.selectedLamp
          · subst hi; simp [hOn] at hoff
          · simp [Function.update_noteq hi] at hoff ⊢
            exact hout i hoff
        · intro hls
          apply huse
          replace hls : lampsState (Function.update s.lamps s.selectedLamp
              { s.lamps s.selectedLamp with value := clampPos raw }) = true := hls
          rw [lampsState_eq_of_isOn s.lamps _ hsame] at hls
          exact hls
  | click =>
    show CoreInv (rotaryClick s).1
    cases hOn : (s.lamps s.selectedLamp).isOn
    · -- selected lamp off: turn it on (forcing lampsInUse beforehand when clear)
      cases hU : s.lampsInUse
      · have hstep : (rotaryClick s).1 = (switchLamp { s with lampsInUse := true } true).1 := by
          simp [rotaryClick, hOn, hU]
        obtain ⟨k1, k2⟩ := switchLamp_inv { s with lampsInUse := true } true hval hout
        rw [hstep]
        exact ⟨k1, k2, ⟨hlo1, hlo2⟩, fun _ => rfl⟩
      · have hstep : (rotaryClick s).1 = (switchLamp s true).1 := by
          simp [rotaryClick, hOn, hU]
        obtain ⟨k1, k2⟩ := switchLamp_inv s true hval hout
        rw [hstep]
        exact ⟨k1, k2, ⟨hlo1, hlo2⟩, fun _ => hU⟩
    · -- selected lamp on: turn it off and recompute lampsInUse
      have hstep : (rotaryClick s).1 =
          { (switchLamp s false).1 with lampsInUse := lampsState (switchLamp s false).1.lamps } := by
        simp [rotaryClick, hOn]
      obtain ⟨k1, k2⟩ := switchLamp_inv s false hval hout
      rw [hstep]
      exact ⟨k1, k2, ⟨hlo1, hlo2⟩, fun hx => hx⟩
  | doubleClick =>
    exact ⟨hval, hout, ⟨hlo1, hlo2⟩, huse⟩
  | longPress =>
    show CoreInv (rotaryLongPressStart s).1
    cases hU : s.lampsInUse
    · obtain ⟨hl, ho, hu, hsel, hro, hdcf, hmcf⟩ := longPressOn_spec s hU hv
      have hallOff : ∀ i, (s.lamps i).isOn = false := by
        intro i
        refine lampsState_false s.lamps ?_ i
        cases hls : lampsState s.lamps
        · rfl
        · rw [huse hls] at hU
          exact absurd hU (by simp)
      refine ⟨?_, ?_, ?_, ?_⟩
      · intro i
        rw [hl i]
        exact hval i
      · intro i hoff
        rw [hl i] at hoff
        replace hoff : (s.lamps i).isOnDefault = false := hoff
        rw [ho i, if_neg (by simp [hoff])]
        exact hout i (hallOff i)
      · rw [hro]
        exact ⟨hlo1, hlo2⟩
      · intro
        exact hu
    · obtain ⟨hl, ho, hu, hro, hdcf, hmcf, hself⟩ := longPressOff_spec s hU hv
      refine ⟨?_, ?_, ?_, ?_⟩
      · intro i
        rw [hl i]
        exact hval i
      · intro i hoff
        rw [ho i]
        cases hOn : (s.lamps i).isOn
        · simpa using hout i hOn
        · simp
      · rw [hro]
        exact ⟨hlo1, hlo2⟩
      · intro hls
        exfalso
        have hoffAll : ∀ i, ((rotaryLongPressStart s).1.lamps i).isOn = false := by
          intro i
          rw [hl i]
        unfold lampsState at hls
        rw [hoffAll 0, hoffAll 1, hoffAll 2] at hls
        simp at hls
  | poll now =>
    show CoreInv (eventsPoll s now).1
    unfold eventsPoll
    cases hp : s.pendingSettle with
    | none => exact ⟨hval, hout, ⟨hlo1, hlo2⟩, huse⟩
    | some due =>
      dsimp only
      split <;> exact ⟨hval, hout, ⟨hlo1, hlo2⟩, huse⟩
  | mqtt lamp tp pl =>
    show CoreInv (mqttCallback s lamp tp pl).1
    by_cases hlamp : lamp < 0 ∨ 2 < lamp
    · rw [mqttCallback_wrongLamp s lamp tp pl hlamp]
      exact ⟨hval, hout, ⟨hlo1, hlo2⟩, huse⟩
    · push_neg at hlamp
      obtain ⟨h0, h2⟩ := hlamp
      by_cases hb : tp = mqttBrightnessTopic
      · subst hb
        rw [mqttCallback_brightness s lamp pl h0 h2]
        exact ⟨hval, hout, ⟨hlo1, hlo2⟩, huse⟩
      · by_cases hc : tp = mqttCommandTopic
        · subst hc
          by_cases hrange : strToInt pl < 0 ∨ 255 < strToInt pl
          · rw [mqttCallback_wrongValue s lamp pl h0 h2 hrange]
            exact ⟨hval, hout, ⟨hlo1, hlo2⟩, huse⟩
          · push_neg at hrange
            obtain ⟨hr0, hr255⟩ := hrange
            by_cases hzero : strToInt pl = 0
            · rw [mqttCallback_cmdOff s lamp pl h0 h2 hzero]
              refine ⟨?_, ?_, ⟨hlo1, hlo2⟩, ?_⟩
              · intro i
                by_cases hi : i = (⟨lamp.toNat, by omega⟩ : Fin 3)
                · subst hi; simp
                  exact hval _
                · simp [Function.update_noteq hi]
                  exact hval i
              · intro i hoff
                by_cases hi : i = (⟨lamp.toNat, by omega⟩ : Fin 3)
                · subst hi; simp
                · simp [Function.update_noteq hi] at hoff ⊢
                  exact hout i hoff
              · intro hls
                exact hls
            · have hpos : 0 < strToInt pl := by omega
              rw [mqttCallback_cmdOn s lamp pl h0 h2 hpos hr255]
              refine ⟨?_, ?_, ⟨hlo1, hlo2⟩, ?_⟩
              · intro i
                by_cases hi : i = (⟨lamp.toNat, by omega⟩ : Fin 3)
                · subst hi; simp; omega
                · simp [Function.update_noteq hi]
                  exact hval i
              · intro i hoff
                by_cases hi : i = (⟨lamp.toNat, by omega⟩ : Fin 3)
                · subst hi; simp at hoff
                · simp [Function.update_noteq hi] at hoff ⊢
                  exact hout i hoff
              · intro
                rfl
        · rw [mqttCallback_unknown s lamp tp pl h0 h2 hb hc]
          exact ⟨hval, hout, ⟨hlo1, hlo2⟩, huse⟩

theorem reachable_inv (s : MachineState) (h : Reachable s) : CoreInv s := by
  induction h with
  | boot dc wc mc => exact inv_init dc wc mc
  | next op _ ih => exact inv_step _ op ih

/-! Machinery for the afterglow-debounce (settle) analysis. -/

theorem publishes_append (a b : List Effect) :
    publishes (a ++ b) = publishes a ++ publishes b :=
  List.filter_append _ _

theorem clampPos_id (raw : Int) (h2 : 2 ≤ raw) (h255 : raw ≤ 255) : clampPos raw = raw := by
  unfold clampPos
  rw [if_neg (by omega), if_neg (by omega)]

theorem eventsPoll_notDue (s : MachineState) (now due : Nat) (hp : s.pendingSettle = some due)
    (h : ¬ due ≤ now) : eventsPoll s now = (s, []) := by
  unfold eventsPoll
  rw [hp]
  dsimp only
  rw [if_neg h]

theorem eventsPoll_due (s : MachineState) (now due : Nat) (hp : s.pendingSettle = some due)
    (h : due ≤ now) :
    eventsPoll s now = ({ s with pendingSettle := none },
      if s.mqttConnected = true then
        [Effect.publish s.selectedLamp.val (s.lamps s.selectedLamp).value]
      else []) := by
  unfold eventsPoll
  rw [hp]
  dsimp only
  rw [if_pos h]

theorem burst_run (l : List (Int × Nat × Nat)) (d : Int × Nat) (s : MachineState)
    (hOn : (s.lamps s.selectedLamp).isOn = true)
    (hok : burstOK s.rotaryOldPosition l) (hne : l ≠ []) :
    publishes (runEff s (burstOps l)).2 = [] ∧
    (runEff s (burstOps l)).1.pendingSettle = some ((lastMove d l).2 + displayAfterglow) ∧
    (runEff s (burstOps l)).1.selectedLamp = s.selectedLamp ∧
    ((runEff s (burstOps l)).1.lamps s.selectedLamp).isOn = true ∧
    ((runEff s (burstOps l)).1.lamps s.selectedLamp).value = (lastMove d l).1 ∧
    (runEff s (burstOps l)).1.mqttConnected = s.mqttConnected := by
  induction l generalizing d s with
  | nil => exact absurd rfl hne
  | cons hd rest ih =>
    obtain ⟨raw, t, u⟩ := hd
    obtain ⟨hraw, h2, h255, hu, hok'⟩ := hok
    have hknob := loopKnob_act s raw t hOn hraw
    rw [clampPos_id raw h2 h255] at hknob
    have hlast : lastMove d ((raw, t, u) :: rest) = lastMove (raw, t) rest := rfl
    rw [hlast]
    simp only [burstOps, runEff, stepEff]
    rw [hknob]
    dsimp only
    rw [eventsPoll_notDue _ u (t + displayAfterglow) rfl (by omega)]
    dsimp only
    cases hrest : rest with
    | nil =>
      simp only [burstOps, runEff]
      refine ⟨?_, ?_, ?_, ?_, ?_, ?_⟩ <;>
        simp [lastMove, hOn, publishes, isPublish]
    | cons hd2 rest2 =>
      rw [← hrest]
      have hOn1 : ((({ s with
          lamps := Function.update s.lamps s.selectedLamp
            { s.lamps s.selectedLamp with value := raw }
          rotaryOldPosition := raw
          knobPos := raw
          output := Function.update s.output s.selectedLamp raw
          pendingSettle := some (t + displayAfterglow) } : MachineState)).lamps
            s.selectedLamp).isOn = true := by
        simpa using hOn
      have hih := ih (raw, t) _ hOn1 hok' (by rw [hrest]; exact List.cons_ne_nil _ _)
      obtain ⟨ih1, ih2, ih3, ih4, ih5, ih6⟩ := hih
      refine ⟨?_, ih2, ih3, ih4, ih5, ih6⟩
      rw [publishes_append, List.nil_append,
        show publishes [Effect.analogWrite ((s.lamps s.selectedLamp).pin) raw] = [] from rfl,
        List.nil_append]
      exact ih1

theorem runEff_append (s : MachineState) (a b : List Op) :
    runEff s (a ++ b) =
      ((runEff (runEff s a).1 b).1, (runEff s a).2 ++ (runEff (runEff s a).1 b).2) := by
  induction a generalizing s with
  | nil => simp [runEff]
  | cons op ops ih =>
    simp only [List.cons_append, runEff, List.append_eq]
    rw [ih]
    simp [List.append_assoc]

theorem digitsVal_nondigit (c : Char) (cs : List Char)
    (h : ¬ (48 ≤ c.toNat ∧ c.toNat ≤ 57)) : digitsVal (c :: cs) 0 = 0 := by
  unfold digitsVal
  rw [if_neg h]

theorem noLeadingDigit_strToInt (pl : List Char) (h : noLeadingDigit pl = true) :
    strToInt pl = 0 := by
  unfold strToInt
  unfold noLeadingDigit at h
  cases hss : skipSpaces pl with
  | nil => rfl
  | cons c cs =>
    rw [hss] at h
    dsimp only at h ⊢
    by_cases hsign : c = '-' ∨ c = '+'
    · rw [if_pos hsign] at h
      cases cs with
      | nil =>
        rcases hsign with h1 | h1 <;> subst h1 <;> simp [digitsVal]
      | cons c2 cs2 =>
        have hnd : ¬ (48 ≤ c2.toNat ∧ c2.toNat ≤ 57) := by simp at h; omega
        have hz := digitsVal_nondigit c2 cs2 hnd
        rcases hsign with h1 | h1 <;> subst h1 <;> simp [hz]
    · rw [if_neg hsign] at h
      have hnd : ¬ (48 ≤ c.toNat ∧ c.toNat ≤ 57) := by simp at h; omega
      push_neg at hsign
      rw [if_neg hsign.1, if_neg hsign.2]
      exact digitsVal_nondigit c cs hnd

theorem writeVals_blocks (pin : Nat) (dm : Nat) (g : Nat → Int) (l : List Nat) :
    writeVals (l.flatMap fun i => [Effect.analogWrite pin (g i), Effect.delayMs dm]) =
      l.map g := by
  induction l with
  | nil => rfl
  | cons a l ih =>
    rw [List.flatMap_cons]
    unfold writeVals at ih ⊢
    rw [List.filterMap_append, ih]
    rfl

theorem delayVals_blocks (pin : Nat) (dm : Nat) (g : Nat → Int) (l : List Nat) :
    delayVals (l.flatMap fun i => [Effect.analogWrite pin (g i), Effect.delayMs dm]) =
      l.map (fun _ => dm) := by
  induction l with
  | nil => rfl
  | cons a l ih =>
    rw [List.flatMap_cons]
    unfold delayVals at ih ⊢
    rw [List.filterMap_append, ih]
    rfl

theorem publishes_blocks (pin : Nat) (dm : Nat) (g : Nat → Int) (l : List Nat) :
    publishes (l.flatMap fun i => [Effect.analogWrite pin (g i), Effect.delayMs dm]) = [] := by
  induction l with
  | nil => rfl
  | cons a l ih =>
    rw [List.flatMap_cons]
    unfold publishes at ih ⊢
    rw [List.filter_append, ih]
    rfl

theorem rampUp_getD (v : Int) (k : Nat) (hk : k ≤ v.toNat) :
    (rampUp v).getD k 0 = Int.ofNat k := by
  unfold rampUp
  rw [List.getD_eq_getElem?_getD, List.getElem?_map,
    List.getElem?_range (Nat.lt_succ_of_le hk)]
  rfl

theorem rampDown_getD (v : Int) (k : Nat) (hk : k ≤ v.toNat) :
    (rampDown v).getD k 0 = v - Int.ofNat k := by
  unfold rampDown
  rw [List.getD_eq_getElem?_getD, List.getElem?_map,
    List.getElem?_range (Nat.lt_succ_of_le hk)]
  rfl

theorem nextLampIdx_val (i : Fin 3) : (nextLampIdx i).val = (i.val + 1) % 3 := by
  fin_cases i <;> simp [nextLampIdx, numberOfLamps]

theorem nextLampIdx_cycle : ∀ i : Fin 3, nextLampIdx (nextLampIdx (nextLampIdx i)) = i := by
  decide

/-! Claim theorems. -/

/-- C2, counterexample to the claim as stated: from the boot state, the
remote command with payload 1 on channel 0 is a set operation that leaves
channel 0 on with value 1, which is outside [2,255]. -/
theorem c2_counterexample :
    ((stepS bootState (Op.mqtt 0 mqttCommandTopic ['1'])).lamps 0).isOn = true ∧
    ((stepS bootState (Op.mqtt 0 mqttCommandTopic ['1'])).lamps 0).value = 1 ∧
    ¬ (2 ≤ ((stepS bootState (Op.mqtt 0 mqttCommandTopic ['1'])).lamps 0).value ∧
        ((stepS bootState (Op.mqtt 0 mqttCommandTopic ['1'])).lamps 0).value ≤ 255) := by
  refine ⟨?_, ?_, ?_⟩ <;> decide

/-- C2 (amended): in every reachable state, every channel value lies in
[1,255] (the knob enforces a minimum of 2, but a remote command may set 1),
and the physical output of every channel that is off is driven at 0. -/
theorem c2_value_bounds (s : MachineState) (h : Reachable s) :
    (∀ i, (s.lamps i).isOn = true → 1 ≤ (s.lamps i).value ∧ (s.lamps i).value ≤ 255) ∧
    (∀ i, (s.lamps i).isOn = false → s.output i = 0) := by
  obtain ⟨hval, hout, _, _⟩ := reachable_inv s h
  exact ⟨fun i _ => hval i, hout⟩

/-- C2 witness: the amended bound at a concrete reachable state. -/
theorem c2_value_bounds_witness :
    (∀ i, (clickState.lamps i).isOn = true →
      1 ≤ (clickState.lamps i).value ∧ (clickState.lamps i).value ≤ 255) ∧
    (∀ i, (clickState.lamps i).isOn = false → clickState.output i = 0) :=
  c2_value_bounds clickState (Reachable.next Op.click (Reachable.boot true true true))

/-- C7: a double click advances the selection to (selectedLamp + 1) mod 3,
reseeds the rotary encoder counter with the stored value of the newly
selected channel, changes no channel state and no output, and three double
clicks in a row return the selection to its original value. -/
theorem c7_double_click (s : MachineState) :
    (stepS s Op.doubleClick).selectedLamp.val = (s.selectedLamp.val + 1) % 3 ∧
    (stepS s Op.doubleClick).knobPos =
      (s.lamps (stepS s Op.doubleClick).selectedLamp).value ∧
    (stepS s Op.doubleClick).lamps = s.lamps ∧
    (stepS s Op.doubleClick).output = s.output ∧
    (stepS s Op.doubleClick).lampsInUse = s.lampsInUse ∧
    (stepEff s Op.doubleClick).2 = [] ∧
    (stepS (stepS (stepS s Op.doubleClick) Op.doubleClick) Op.doubleClick).selectedLamp =
      s.selectedLamp := by
  refine ⟨nextLampIdx_val s.selectedLamp, rfl, rfl, rfl, rfl, rfl, ?_⟩
  show nextLampIdx (nextLampIdx (nextLampIdx s.selectedLamp)) = s.selectedLamp
  exact nextLampIdx_cycle s.selectedLamp

/-- C8, evaluation at the failing input: from the boot state (all channels
off, all isOnDefault false, lampsInUse false) a long press takes the
restore branch, restores no channel, and still sets lampsInUse to true,
so lampsInUse disagrees with "some channel is on". -/
theorem c8_lamps_in_use_drift :
    (stepS bootState Op.longPress).lampsInUse = true ∧
    (∀ i, ((stepS bootState Op.longPress).lamps i).isOn = false) := by
  refine ⟨?_, ?_⟩ <;> decide

/-- C9: in a reachable state, a knob reading is a no-op on the whole state
while the selected channel is off; while it is on, if the clamped reading
differs from the recorded previous reading, the reading is clamped to
[2,255], the value of the selected channel becomes the clamped reading, the
output is driven directly by a single analogWrite (no fade ramp and no
publish), the encoder counter holds the clamped reading, and the afterglow
settle event is scheduled at now + displayAfterglow. -/
theorem c9_knob_rotation (s : MachineState) (raw : Int) (now : Nat) (h : Reachable s) :
    ((s.lamps s.selectedLamp).isOn = false →
      stepS s (Op.knob raw now) = s ∧ (stepEff s (Op.knob raw now)).2 = []) ∧
    ((s.lamps s.selectedLamp).isOn = true → clampPos raw ≠ s.rotaryOldPosition →
      2 ≤ clampPos raw ∧ clampPos raw ≤ 255 ∧
      ((stepS s (Op.knob raw now)).lamps s.selectedLamp).value = clampPos raw ∧
      (stepS s (Op.knob raw now)).knobPos = clampPos raw ∧
      (stepS s (Op.knob raw now)).output s.selectedLamp = clampPos raw ∧
      (stepS s (Op.knob raw now)).pendingSettle = some (now + displayAfterglow) ∧
      (stepEff s (Op.knob raw now)).2 =
        [Effect.analogWrite ((s.lamps s.selectedLamp).pin) (clampPos raw)]) := by
  obtain ⟨hval, hout, ⟨hlo1, hlo2⟩, huse⟩ := reachable_inv s h
  constructor
  · intro hOff
    have := loopKnob_off s raw now hOff
    constructor
    · show (loopKnob s raw now).1 = s
      rw [this]
    · show (loopKnob s raw now).2 = []
      rw [this]
  · intro hOn hne
    have hraw : raw ≠ s.rotaryOldPosition := by
      intro heq
      apply hne
      rw [heq]
      exact clampPos_id s.rotaryOldPosition hlo1 hlo2
    have hact := loopKnob_act s raw now hOn hraw
    obtain ⟨hc1, hc2⟩ := clampPos_bounds raw
    refine ⟨hc1, hc2, ?_, ?_, ?_, ?_, ?_⟩
    · show ((loopKnob s raw now).1.lamps s.selectedLamp).value = clampPos raw
      rw [hact]
      simp
    · show (loopKnob s raw now).1.knobPos = clampPos raw
      rw [hact]
    · show (loopKnob s raw now).1.output s.selectedLamp = clampPos raw
      rw [hact]
      simp
    · show (loopKnob s raw now).1.pendingSettle = some (now + displayAfterglow)
      rw [hact]
    · show (loopKnob s raw now).2 = _
      rw [hact]

/-- C9 witness: from the reachable state with lamp 0 on at 128, the reading
300 is clamped to 255 and applied directly. -/
theorem c9_knob_rotation_witness :
    ((stepS clickState (Op.knob 300 50)).lamps clickState.selectedLamp).value =
      clampPos 300 ∧
    (stepS clickState (Op.knob 300 50)).pendingSettle = some (50 + displayAfterglow) := by
  have h := (c9_knob_rotation clickState 300 50
    (Reachable.next Op.click (Reachable.boot true true true))).2 (by decide) (by decide)
  exact ⟨h.2.2.1, h.2.2.2.2.2.1⟩

/-- C10: a valid remote on-command (payload 1..255) for channel i leaves
every other channel, the selection and every other output untouched, but
overwrites the shared rotary encoder counter with the commanded value even
when i is not the selected channel, so the commanded value becomes the
baseline position the selected channel sees on its next rotation. -/
theorem c10_remote_on_frame (s : MachineState) (lamp : Int) (pl : List Char) (i : Fin 3)
    (hi : (i.val : Int) = lamp) (h1 : 1 ≤ strToInt pl) (h255 : strToInt pl ≤ 255) :
    (∀ j : Fin 3, j ≠ i → (stepS s (Op.mqtt lamp mqttCommandTopic pl)).lamps j = s.lamps j) ∧
    (∀ j : Fin 3, j ≠ i → (stepS s (Op.mqtt lamp mqttCommandTopic pl)).output j = s.output j) ∧
    (stepS s (Op.mqtt lamp mqttCommandTopic pl)).selectedLamp = s.selectedLamp ∧
    (stepS s (Op.mqtt lamp mqttCommandTopic pl)).rotaryOldPosition = s.rotaryOldPosition ∧
    (stepS s (Op.mqtt lamp mqttCommandTopic pl)).knobPos = strToInt pl := by
  have h0 : 0 ≤ lamp := by omega
  have h2 : lamp ≤ 2 := by omega
  have hfin : (⟨lamp.toNat, by omega⟩ : Fin 3) = i := by
    apply Fin.ext
    simp
    omega
  have hcmd := mqttCallback_cmdOn s lamp pl h0 h2 (by omega) h255
  rw [hfin] at hcmd
  refine ⟨?_, ?_, ?_, ?_, ?_⟩
  · intro j hj
    show (mqttCallback s lamp mqttCommandTopic pl).1.lamps j = s.lamps j
    rw [hcmd]
    simp [Function.update_noteq hj]
  · intro j hj
    show (mqttCallback s lamp mqttCommandTopic pl).1.output j = s.output j
    rw [hcmd]
    simp [Function.update_noteq hj]
  · show (mqttCallback s lamp mqttCommandTopic pl).1.selectedLamp = s.selectedLamp
    rw [hcmd]
  · show (mqttCallback s lamp mqttCommandTopic pl).1.rotaryOldPosition = s.rotaryOldPosition
    rw [hcmd]
  · show (mqttCallback s lamp mqttCommandTopic pl).1.knobPos = strToInt pl
    rw [hcmd]

/-- C10 witness: a command of 200 to channel 1 while channel 0 is selected
leaves the selection at 0 yet moves the encoder counter to 200. -/
theorem c10_remote_on_frame_witness :
    bootState.selectedLamp = 0 ∧
    (stepS bootState (Op.mqtt 1 mqttCommandTopic ['2','0','0'])).selectedLamp = 0 ∧
    (stepS bootState (Op.mqtt 1 mqttCommandTopic ['2','0','0'])).knobPos = 200 := by
  have h := c10_remote_on_frame bootState 1 ['2','0','0'] 1 (by decide) (by decide) (by decide)
  exact ⟨rfl, h.2.2.1, h.2.2.2.2⟩

/-- C1, counterexample to the claim as stated: the remote command 200 for
channel 1 from the boot state performs a single direct analogWrite (no fade
ramp through the Fade Engine) and publishes nothing, while the claim
demands exactly one outbound publish of 200 on the brightness topic of
channel 1. -/
theorem c1_counterexample :
    (stepEff bootState (Op.mqtt 1 mqttCommandTopic ['2','0','0'])).2 =
      [Effect.analogWrite 7 200] ∧
    publishes (stepEff bootState (Op.mqtt 1 mqttCommandTopic ['2','0','0'])).2 = [] ∧
    ¬ (publishes (stepEff bootState (Op.mqtt 1 mqttCommandTopic ['2','0','0'])).2 =
        [Effect.publish 1 200]) ∧
    ((stepS bootState (Op.mqtt 1 mqttCommandTopic ['2','0','0'])).lamps 1).isOn = true ∧
    ((stepS bootState (Op.mqtt 1 mqttCommandTopic ['2','0','0'])).lamps 1).value = 200 := by
  refine ⟨?_, ?_, ?_, ?_, ?_⟩ <;> decide

/-- C1 (amended): a remote command with an in-range payload v for a valid
channel: when v = 0 the channel ends off with its output driven directly to
0, its stored value kept, lampsInUse recomputed from the array, and no
outbound publish; when 1 <= v <= 255 the channel value becomes v, the
encoder counter is reseeded to v, the channel ends on with its output
driven directly to v, lampsInUse is set, and again no outbound publish
occurs (the Fade Engine is not invoked on either path: the effect trace is
one direct analogWrite). -/
theorem c1_remote_command (s : MachineState) (lamp : Int) (pl : List Char) (i : Fin 3)
    (hi : (i.val : Int) = lamp) (h0 : 0 ≤ strToInt pl) (h255 : strToInt pl ≤ 255) :
    (strToInt pl = 0 →
      ((stepS s (Op.mqtt lamp mqttCommandTopic pl)).lamps i).isOn = false ∧
      (stepS s (Op.mqtt lamp mqttCommandTopic pl)).output i = 0 ∧
      ((stepS s (Op.mqtt lamp mqttCommandTopic pl)).lamps i).value = (s.lamps i).value ∧
      (stepS s (Op.mqtt lamp mqttCommandTopic pl)).lampsInUse =
        lampsState (stepS s (Op.mqtt lamp mqttCommandTopic pl)).lamps ∧
      (stepEff s (Op.mqtt lamp mqttCommandTopic pl)).2 =
        [Effect.analogWrite ((s.lamps i).pin) 0]) ∧
    (1 ≤ strToInt pl →
      ((stepS s (Op.mqtt lamp mqttCommandTopic pl)).lamps i).value = strToInt pl ∧
      ((stepS s (Op.mqtt lamp mqttCommandTopic pl)).lamps i).isOn = true ∧
      (stepS s (Op.mqtt lamp mqttCommandTopic pl)).knobPos = strToInt pl ∧
      (stepS s (Op.mqtt lamp mqttCommandTopic pl)).output i = strToInt pl ∧
      (stepS s (Op.mqtt lamp mqttCommandTopic pl)).lampsInUse = true ∧
      (stepEff s (Op.mqtt lamp mqttCommandTopic pl)).2 =
        [Effect.analogWrite ((s.lamps i).pin) (strToInt pl)]) := by
  have hl0 : 0 ≤ lamp := by omega
  have hl2 : lamp ≤ 2 := by omega
  have hfin : (⟨lamp.toNat, by omega⟩ : Fin 3) = i := by
    apply Fin.ext
    simp
    omega
  constructor
  · intro hz
    have hcmd := mqttCallback_cmdOff s lamp pl hl0 hl2 hz
    rw [hfin] at hcmd
    refine ⟨?_, ?_, ?_, ?_, ?_⟩
    · show ((mqttCallback s lamp mqttCommandTopic pl).1.lamps i).isOn = false
      rw [hcmd]
      simp
    · show (mqttCallback s lamp mqttCommandTopic pl).1.output i = 0
      rw [hcmd]
      simp
    · show ((mqttCallback s lamp mqttCommandTopic pl).1.lamps i).value = (s.lamps i).value
      rw [hcmd]
      simp
    · show (mqttCallback s lamp mqttCommandTopic pl).1.lampsInUse =
        lampsState (mqttCallback s lamp mqttCommandTopic pl).1.lamps
      rw [hcmd]
    · show (mqttCallback s lamp mqttCommandTopic pl).2 = _
      rw [hcmd]
  · intro h1
    have hcmd := mqttCallback_cmdOn s lamp pl hl0 hl2 (by omega) h255
    rw [hfin] at hcmd
    refine ⟨?_, ?_, ?_, ?_, ?_, ?_⟩
    · show ((mqttCallback s lamp mqttCommandTopic pl).1.lamps i).value = strToInt pl
      rw [hcmd]
      simp
    · show ((mqttCallback s lamp mqttCommandTopic pl).1.lamps i).isOn = true
      rw [hcmd]
      simp
    · show (mqttCallback s lamp mqttCommandTopic pl).1.knobPos = strToInt pl
      rw [hcmd]
    · show (mqttCallback s lamp mqttCommandTopic pl).1.output i = strToInt pl
      rw [hcmd]
      simp
    · show (mqttCallback s lamp mqttCommandTopic pl).1.lampsInUse = true
      rw [hcmd]
    · show (mqttCallback s lamp mqttCommandTopic pl).2 = _
      rw [hcmd]

/-- C1 witness: the amended behavior at payload 200 for channel 1, and at
payload 0 for channel 0. -/
theorem c1_remote_command_witness :
    (((stepS bootState (Op.mqtt 1 mqttCommandTopic ['2','0','0'])).lamps 1).value = 200 ∧
      ((stepS bootState (Op.mqtt 1 mqttCommandTopic ['2','0','0'])).lamps 1).isOn = true) ∧
    ((stepS clickState (Op.mqtt 0 mqttCommandTopic ['0'])).lamps 0).isOn = false := by
  have hOn := (c1_remote_command bootState 1 ['2','0','0'] 1
    (by decide) (by decide) (by decide)).2 (by decide)
  have hOff := (c1_remote_command clickState 0 ['0'] 0
    (by decide) (by decide) (by decide)).1 (by decide)
  exact ⟨⟨hOn.1, hOn.2.1⟩, hOff.1⟩

/-- C3, counterexample to the claim as stated: with no display connected,
the all-off branch of a long press never resets the selection to channel 0
(the reset sits inside the display branch of the source); from a
display-less boot, selecting channel 1, turning it on and long-pressing
leaves the selection at 1. -/
theorem c3_counterexample :
    lampsState (stepS (stepS noDisplayBoot Op.doubleClick) Op.click).lamps = true ∧
    (stepS (stepS (stepS noDisplayBoot Op.doubleClick) Op.click) Op.longPress).selectedLamp
      = 1 ∧
    ¬ ((stepS (stepS (stepS noDisplayBoot Op.doubleClick) Op.click)
        Op.longPress).selectedLamp = 0) := by
  refine ⟨?_, ?_, ?_⟩ <;> decide

/-- C3 (amended): in a reachable state with the display connected and some
channel on, a long press snapshots every isOn into isOnDefault, turns every
channel off with values kept, resets the selection to 0 and clears
lampsInUse; an immediately following long press restores exactly the
channels that were on, with values unchanged, resets the selection to 0
and sets lampsInUse. -/
theorem c3_long_press_round_trip (s : MachineState) (h : Reachable s)
    (hdc : s.displayConnected = true) (hAny : lampsState s.lamps = true) :
    (∀ i, (stepS s Op.longPress).lamps i =
        { s.lamps i with isOn := false, isOnDefault := (s.lamps i).isOn }) ∧
    (stepS s Op.longPress).selectedLamp = 0 ∧
    (stepS s Op.longPress).lampsInUse = false ∧
    (∀ i, (stepS (stepS s Op.longPress) Op.longPress).lamps i =
        { s.lamps i with isOnDefault := (s.lamps i).isOn }) ∧
    (stepS (stepS s Op.longPress) Op.longPress).selectedLamp = 0 ∧
    (stepS (stepS s Op.longPress) Op.longPress).lampsInUse = true := by
  obtain ⟨hval, hout, _, huse⟩ := reachable_inv s h
  have hv : ∀ i, 0 ≤ (s.lamps i).value := fun i => le_trans (by omega) (hval i).1
  have hUse := huse hAny
  obtain ⟨hl1, ho1, hu1, hro1, hdcf1, hmcf1, hsel1⟩ := longPressOff_spec s hUse hv
  have hv1 : ∀ i, 0 ≤ ((rotaryLongPressStart s).1.lamps i).value := by
    intro i
    rw [hl1 i]
    exact hv i
  obtain ⟨hl2, ho2, hu2, hsel2, hro2, hdcf2, hmcf2⟩ :=
    longPressOn_spec (rotaryLongPressStart s).1 hu1 hv1
  refine ⟨hl1, hsel1 hdc, hu1, ?_, hsel2, hu2⟩
  intro i
  show (rotaryLongPressStart (rotaryLongPressStart s).1).1.lamps i = _
  rw [hl2 i, hl1 i]

/-- C3 witness: the round trip from the reachable state with lamp 0 on. -/
theorem c3_long_press_round_trip_witness :
    (stepS clickState Op.longPress).selectedLamp = 0 ∧
    (stepS clickState Op.longPress).lampsInUse = false ∧
    (stepS (stepS clickState Op.longPress) Op.longPress).lampsInUse = true := by
  have h := c3_long_press_round_trip clickState
    (Reachable.next Op.click (Reachable.boot true true true)) (by decide) (by decide)
  exact ⟨h.2.1, h.2.2.1, h.2.2.2.2.2⟩

/-- C4, counterexample to the claim as stated: a non-numeric command
payload is not rejected; Arduino toInt parses it as 0, so it is executed as
an off command and does change state (lamp 0 was on, ends off). -/
theorem c4_counterexample :
    noLeadingDigit ['x', 'y'] = true ∧
    (clickState.lamps 0).isOn = true ∧
    ((stepS clickState (Op.mqtt 0 mqttCommandTopic ['x', 'y'])).lamps 0).isOn = false := by
  refine ⟨?_, ?_, ?_⟩ <;> decide

/-- C4 (amended): an invalid channel index is rejected and logged with no
state change; a brightness-echo message is always ignored with no state
change; a command payload parsing outside [0,255] is rejected and logged
with no state change; an unknown subtopic is rejected and logged with no
state change; but a payload with no leading digit parses to 0 and is
therefore executed as the off command for the addressed channel. -/
theorem c4_remote_reject (s : MachineState) (lamp : Int) (tp : String) (pl : List Char) :
    ((lamp < 0 ∨ 2 < lamp) →
      mqttCallback s lamp tp pl = (s, [Effect.log msgWrongLamp])) ∧
    (0 ≤ lamp → lamp ≤ 2 →
      mqttCallback s lamp mqttBrightnessTopic pl = (s, [])) ∧
    (0 ≤ lamp → lamp ≤ 2 → (strToInt pl < 0 ∨ 255 < strToInt pl) →
      mqttCallback s lamp mqttCommandTopic pl = (s, [Effect.log msgWrongValue])) ∧
    (0 ≤ lamp → lamp ≤ 2 → tp ≠ mqttBrightnessTopic → tp ≠ mqttCommandTopic →
      mqttCallback s lamp tp pl = (s, [Effect.log msgUnknownTopic])) ∧
    (noLeadingDigit pl = true → strToInt pl = 0) ∧
    (∀ i : Fin 3, (i.val : Int) = lamp → noLeadingDigit pl = true →
      ((mqttCallback s lamp mqttCommandTopic pl).1.lamps i).isOn = false) := by
  refine ⟨fun h => mqttCallback_wrongLamp s lamp tp pl h,
    fun h0 h2 => mqttCallback_brightness s lamp pl h0 h2,
    fun h0 h2 hrange => mqttCallback_wrongValue s lamp pl h0 h2 hrange,
    fun h0 h2 hb hc => mqttCallback_unknown s lamp tp pl h0 h2 hb hc,
    fun hnd => noLeadingDigit_strToInt pl hnd, ?_⟩
  intro i hi hnd
  have hz := noLeadingDigit_strToInt pl hnd
  have h0 : 0 ≤ lamp := by omega
  have h2 : lamp ≤ 2 := by omega
  have hfin : (⟨lamp.toNat, by omega⟩ : Fin 3) = i := by
    apply Fin.ext
    simp
    omega
  have hcmd := mqttCallback_cmdOff s lamp pl h0 h2 hz
  rw [hfin] at hcmd
  rw [hcmd]
  simp

/-- C4 witness: channel index 5 is rejected with no state change. -/
theorem c4_remote_reject_witness :
    mqttCallback bootState 5 mqttBrightnessTopic ['1'] =
      (bootState, [Effect.log msgWrongLamp]) :=
  (c4_remote_reject bootState 5 mqttBrightnessTopic ['1']).1 (by decide)

/-- C5: a registered knob movement always overwrites the pending settle
event with exactly one new event due a quiet period later (the Option-typed
slot holds at most one pending event, and scheduling replaces any prior
one); and for every burst of movements each followed by a poll that comes
before the quiet period of that movement elapses, the burst produces zero
publishes, and a poll after the last movement plus the quiet period
produces exactly one publish carrying the current value of the selected
channel. -/
theorem c5_settle_coalescing :
    (∀ (s : MachineState) (raw : Int) (now : Nat),
      (s.lamps s.selectedLamp).isOn = true → raw ≠ s.rotaryOldPosition →
      (stepS s (Op.knob raw now)).pendingSettle = some (now + displayAfterglow)) ∧
    (∀ (s : MachineState) (l : List (Int × Nat × Nat)) (w : Nat),
      (s.lamps s.selectedLamp).isOn = true → s.mqttConnected = true →
      burstOK s.rotaryOldPosition l → l ≠ [] →
      (lastMove (0, 0) l).2 + displayAfterglow ≤ w →
      publishes (runEff s (burstOps l)).2 = [] ∧
      publishes (runEff s (burstOps l ++ [Op.poll w])).2 =
        [Effect.publish s.selectedLamp.val (lastMove (0, 0) l).1]) := by
  constructor
  · intro s raw now hOn hne
    show (loopKnob s raw now).1.pendingSettle = _
    rw [loopKnob_act s raw now hOn hne]
  · intro s l w hOn hmc hok hne hw
    obtain ⟨h1, h2, h3, h4, h5, h6⟩ := burst_run l (0, 0) s hOn hok hne
    refine ⟨h1, ?_⟩
    rw [runEff_append, publishes_append, h1, List.nil_append]
    have hfire := eventsPoll_due (runEff s (burstOps l)).1 w
      ((lastMove (0, 0) l).2 + displayAfterglow) h2 hw
    show publishes (runEff (runEff s (burstOps l)).1 [Op.poll w]).2 = _
    have hone : runEff (runEff s (burstOps l)).1 [Op.poll w] =
        ((eventsPoll (runEff s (burstOps l)).1 w).1,
          (eventsPoll (runEff s (burstOps l)).1 w).2 ++ []) := rfl
    rw [hone, hfire]
    dsimp only
    rw [List.append_nil, if_pos (h6.trans hmc), h3]
    rw [show ((runEff s (burstOps l)).1.lamps s.selectedLamp).value =
      (lastMove (0, 0) l).1 from h5]
    rfl

/-- C5 witness: one movement then a poll inside the quiet period publishes
nothing; a poll after the quiet period publishes the settled value once. -/
theorem c5_settle_coalescing_witness :
    publishes (runEff clickState (burstOps [(200, 10, 11)])).2 = [] ∧
    publishes (runEff clickState (burstOps [(200, 10, 11)] ++ [Op.poll 14])).2 =
      [Effect.publish clickState.selectedLamp.val (lastMove (0, 0) [(200, 10, 11)]).1] :=
  c5_settle_coalescing.2 clickState [(200, 10, 11)] 14 (by decide) (by decide)
    ⟨by decide, by decide, by decide, by decide, trivial⟩ (by simp) (by decide)

/-- C6: for a connected transport and a nonnegative stored value v of the
selected channel, switchLamp drives the pin through a linear unit-step ramp
(the write list is 0..v for turning on and v..0 for turning off: v.toNat+1
writes, first and last as stated, consecutive writes differing by exactly
one), holds the configured fadeSpeed delay after every step, emits exactly
one publish carrying v (on) or 0 (off), and ends with isOn set as
requested. -/
theorem c6_fade_contract (s : MachineState) (b : Bool)
    (hmc : s.mqttConnected = true) (hv : 0 ≤ (s.lamps s.selectedLamp).value) :
    writeVals (switchLamp s b).2 =
      (if b then rampUp (s.lamps s.selectedLamp).value
       else rampDown (s.lamps s.selectedLamp).value) ∧
    (writeVals (switchLamp s b).2).length = (s.lamps s.selectedLamp).value.toNat + 1 ∧
    (writeVals (switchLamp s b).2).getD 0 0 =
      (if b then 0 else (s.lamps s.selectedLamp).value) ∧
    (writeVals (switchLamp s b).2).getD (s.lamps s.selectedLamp).value.toNat 0 =
      (if b then (s.lamps s.selectedLamp).value else 0) ∧
    (∀ k, k < (s.lamps s.selectedLamp).value.toNat →
      (writeVals (switchLamp s b).2).getD (k + 1) 0 -
        (writeVals (switchLamp s b).2).getD k 0 = (if b then 1 else -1)) ∧
    delayVals (switchLamp s b).2 =
      List.replicate ((s.lamps s.selectedLamp).value.toNat + 1) fadeSpeed ∧
    publishes (switchLamp s b).2 =
      [Effect.publish s.selectedLamp.val
        (if b then (s.lamps s.selectedLamp).value else 0)] ∧
    ((switchLamp s b).1.lamps s.selectedLamp).isOn = b := by
  have hnneg : ¬ ((s.lamps s.selectedLamp).value < 0) := by omega
  have htrace : (switchLamp s b).2 =
      ((List.range ((s.lamps s.selectedLamp).value.toNat + 1)).flatMap fun i =>
        [Effect.analogWrite ((s.lamps s.selectedLamp).pin)
          (if b then Int.ofNat i else (s.lamps s.selectedLamp).value - Int.ofNat i),
         Effect.delayMs fadeSpeed]) ++
      [Effect.publish s.selectedLamp.val
        (if b then (s.lamps s.selectedLamp).value else 0)] := by
    show fadeTrace b ((s.lamps s.selectedLamp).pin) ((s.lamps s.selectedLamp).value) ++ _ = _
    unfold fadeTrace
    rw [if_neg hnneg, if_pos hmc]
  have hwrites : writeVals (switchLamp s b).2 =
      (if b then rampUp (s.lamps s.selectedLamp).value
       else rampDown (s.lamps s.selectedLamp).value) := by
    rw [htrace]
    unfold writeVals
    rw [List.filterMap_append]
    have hblocks := writeVals_blocks ((s.lamps s.selectedLamp).pin) fadeSpeed
      (fun i => if b then Int.ofNat i else (s.lamps s.selectedLamp).value - Int.ofNat i)
      (List.range ((s.lamps s.selectedLamp).value.toNat + 1))
    unfold writeVals at hblocks
    rw [hblocks]
    cases b <;> simp [rampUp, rampDown]
  refine ⟨hwrites, ?_, ?_, ?_, ?_, ?_, ?_, ?_⟩
  · rw [hwrites]
    cases b <;> simp [rampUp, rampDown]
  · rw [hwrites]
    cases b
    · rw [if_neg (by simp)]
      rw [rampDown_getD _ 0 (Nat.zero_le _)]
      simp
    · rw [if_pos rfl]
      rw [rampUp_getD _ 0 (Nat.zero_le _)]
      simp
  · rw [hwrites]
    cases b
    · rw [if_neg (by simp)]
      rw [rampDown_getD _ _ (Nat.le_refl _)]
      rw [Int.ofNat_eq_coe, Int.toNat_of_nonneg hv]
      simp
    · rw [if_pos rfl]
      rw [rampUp_getD _ _ (Nat.le_refl _)]
      rw [Int.ofNat_eq_coe, Int.toNat_of_nonneg hv]
      simp
  · intro k hk
    rw [hwrites]
    cases b
    · rw [if_neg (by simp)]
      rw [rampDown_getD _ _ hk, rampDown_getD _ _ (Nat.le_of_lt hk)]
      simp only [Int.ofNat_eq_coe]
      push_cast
      ring_nf
    · rw [if_pos rfl]
      rw [rampUp_getD _ _ hk, rampUp_getD _ _ (Nat.le_of_lt hk)]
      simp only [Int.ofNat_eq_coe]
      push_cast
      ring_nf
  · rw [htrace]
    unfold delayVals
    rw [List.filterMap_append]
    have hblocks := delayVals_blocks ((s.lamps s.selectedLamp).pin) fadeSpeed
      (fun i => if b then Int.ofNat i else (s.lamps s.selectedLamp).value - Int.ofNat i)
      (List.range ((s.lamps s.selectedLamp).value.toNat + 1))
    unfold delayVals at hblocks
    rw [hblocks]
    simp [List.map_const]
  · rw [htrace]
    unfold publishes
    rw [List.filter_append]
    have hblocks := publishes_blocks ((s.lamps s.selectedLamp).pin) fadeSpeed
      (fun i => if b then Int.ofNat i else (s.lamps s.selectedLamp).value - Int.ofNat i)
      (List.range ((s.lamps s.selectedLamp).value.toNat + 1))
    unfold publishes at hblocks
    rw [hblocks]
    rfl
  · rw [switchLamp_lamps]
    simp

/-- C6 witness: turning lamp 0 on from the boot state writes the ramp of
length 129, publishes 128 once, and finishes with the lamp on. -/
theorem c6_fade_contract_witness :
    (writeVals (switchLamp bootState true).2).length = 129 ∧
    publishes (switchLamp bootState true).2 = [Effect.publish 0 128] ∧
    ((switchLamp bootState true).1.lamps bootState.selectedLamp).isOn = true := by
  have h := c6_fade_contract bootState true rfl (by decide)
  exact ⟨h.2.1, h.2.2.2.2.2.2.1, h.2.2.2.2.2.2.2⟩
